import Mathlib

/-!
Shallow embedding of the `vk` request-dispatch core (suborbital/xeno):
middleware/afterware composition, response resolution, router
construction/finalization/dispatch, CORS primitives and the websocket
adapter, together with theorems settling the specification claims.

Go conventions mapped into Lean:
* a per-request mutable context (`*Ctx` plus the response-header map) is
  threaded as an explicit state value of an abstract type `σ`;
* Go functions that may `panic` produce an `Outcome`, where `.panic`
  models abnormal unwinding of the body (a `defer` still runs);
* `nil` values/errors become `Option`.
-/

namespace Vk

/-- Result of running a Go function body: either it returns normally with a
value, or it unwinds abnormally (`panic`). -/
inductive Outcome (α : Type u) where
  | norm : α → Outcome α
  | panic : Outcome α
deriving DecidableEq, Repr

/-- `Middleware` as used by `augmentHttpHandler`/`augmentWsHandler`:
`func(*http.Request, *Ctx) error`, embedded as a state transformer that
returns an optional error (or panics). The request is part of the state. -/
abbrev MwFn (σ ε : Type) := σ → σ × Outcome (Option ε)

/-- `Afterware`: `func(*http.Request, *Ctx)`, a plain state transformer. -/
abbrev AfFn (σ : Type) := σ → σ

/-- `HandlerFunc` body as seen by `augmentHttpHandler`: returns
`(interface{}, error)`, i.e. an optional value and an optional error,
or panics. -/
abbrev HFn (σ ε α : Type) := σ → σ × Outcome (Option α × Option ε)

/-- `WebSocketHandlerFunc` body as seen by `augmentWsHandler`: returns
only an `error`, or panics. -/
abbrev WsFn (σ ε : Type) := σ → σ × Outcome (Option ε)

/-- The `for _, m := range middleware { if err := m(r, ctx); err != nil
{ return ..., err } }` loop: run middlewares in list order, stopping at the
first non-nil error (or panic). -/
def runMiddleware : List (MwFn σ ε) → σ → σ × Outcome (Option ε)
  | [], s => (s, .norm none)
  | m :: rest, s =>
    match m s with
    | (s', .panic) => (s', .panic)
    | (s', .norm (some e)) => (s', .norm (some e))
    | (s', .norm none) => runMiddleware rest s'

/-- The deferred `for _, a := range afterware { a(r, ctx) }` loop: apply
every afterware exactly once, in list order. -/
def runAfterware (afterware : List (AfFn σ)) (s : σ) : σ :=
  afterware.foldl (fun t a => a t) s

/-- `augmentHttpHandler` (src/vk/middleware.go): wraps `inner` so the
middlewares run first (short-circuiting on error), then `inner`, while the
deferred afterware loop runs exactly once on the way out — also when a
middleware errors and also when the body unwinds abnormally. The returned
`(resp, err)` pair is fixed before the deferred afterware runs, so
afterware cannot affect it. -/
def augmentHttpHandler (inner : HFn σ ε α) (middleware : List (MwFn σ ε))
    (afterware : List (AfFn σ)) : HFn σ ε α :=
  fun s =>
    let body : σ × Outcome (Option α × Option ε) :=
      match runMiddleware middleware s with
      | (s', .panic) => (s', .panic)
      | (s', .norm (some e)) => (s', .norm (none, some e))
      | (s', .norm none) => inner s'
    (runAfterware afterware body.1, body.2)

/-- `augmentWsHandler` (src/vk/middleware.go): same shape as
`augmentHttpHandler` but the inner handler returns only an error. -/
def augmentWsHandler (inner : WsFn σ ε) (middleware : List (MwFn σ ε))
    (afterware : List (AfFn σ)) : WsFn σ ε :=
  fun s =>
    let body : σ × Outcome (Option ε) :=
      match runMiddleware middleware s with
      | (s', .panic) => (s', .panic)
      | (s', .norm (some e)) => (s', .norm (some e))
      | (s', .norm none) => inner s'
    (runAfterware afterware body.1, body.2)

/-- The middleware-plus-handler phase of `augmentHttpHandler`, without the
deferred afterware: what has happened by the time the `defer` fires. -/
def httpPipeline (inner : HFn σ ε α) (middleware : List (MwFn σ ε)) (s : σ) :
    σ × Outcome (Option α × Option ε) :=
  match runMiddleware middleware s with
  | (s', .panic) => (s', .panic)
  | (s', .norm (some e)) => (s', .norm (none, some e))
  | (s', .norm none) => inner s'

/-- The middleware-plus-handler phase of `augmentWsHandler`, without the
deferred afterware. -/
def wsPipeline (inner : WsFn σ ε) (middleware : List (MwFn σ ε)) (s : σ) :
    σ × Outcome (Option ε) :=
  match runMiddleware middleware s with
  | (s', .panic) => (s', .panic)
  | (s', .norm (some e)) => (s', .norm (some e))
  | (s', .norm none) => inner s'

/-- `Middleware` in the functional style (`func(HandlerFunc) HandlerFunc`),
possibly `nil`, as consumed by `WrapHandler`. -/
abbrev FnMw (η : Type) := Option (η → η)

/-- `WrapHandler` (src/vk/middleware.go): folds the middleware list over the
handler from first to last, skipping `nil` entries, so the last non-nil
middleware ends up outermost. -/
def WrapHandler (handler : η) (mw : List (FnMw η)) : η :=
  mw.foldl (fun h m => match m with | some f => f h | none => h) handler

/-- `http.Header` restricted to `Get`/`Set`: a total map from key to value,
where the empty string plays Go's role of "unset" (`Get` on a missing key
returns `""`). -/
def Headers : Type := String → String

/-- `http.Header.Set`: replace the value associated with a key. -/
def setHeader (h : Headers) (k v : String) : Headers :=
  fun k' => if k' = k then v else h k'

/-- `http.Header.Get`: the value for a key, `""` when unset. -/
def getHeader (h : Headers) (k : String) : String := h k

/-- `contentTypeHeaderKey` (src/vk/router.go). -/
def contentTypeHeaderKey : String := "Content-Type"

/-- The fixed allow-list written by `enableCors`. -/
def corsAllowHeaders : String :=
  "Accept, Content-Type, Content-Length, Accept-Encoding, Authorization, cache-control"

/-- `enableCors` (src/vk/middleware.go): for a non-empty domain set the
three CORS headers on `ctx.RespHeaders`; for the empty domain do nothing. -/
def enableCors (h : Headers) (domain : String) : Headers :=
  if domain ≠ "" then
    setHeader
      (setHeader (setHeader h "Access-Control-Allow-Origin" domain)
        "X-Requested-With" "XMLHttpRequest")
      "Access-Control-Allow-Headers" corsAllowHeaders
  else h

/-- Functional-style `HandlerFunc` over the response headers: returns the
mutated headers and the `(interface{}, error)` pair. Used by the
functional middlewares (`CORSMiddleware`, `ContentTypeMiddleware`). -/
abbrev HandlerFn (α ε : Type) := Headers → Headers × (Option α × Option ε)

/-- `CORSMiddleware` (src/vk/middleware.go): call `enableCors` on the
context, then the inner handler. -/
def CORSMiddleware (domain : String) (inner : HandlerFn α ε) : HandlerFn α ε :=
  fun h => inner (enableCors h domain)

/-- `CORSHandler` (src/vk/middleware.go): call `enableCors` on the context
and return `(nil, nil)`. -/
def CORSHandler (domain : String) : HandlerFn α ε :=
  fun h => (enableCors h domain, (none, none))

/-- `ContentTypeMiddleware` (src/vk/middleware.go): set the Content-Type
response header, then call the inner handler. -/
def ContentTypeMiddleware (contentType : String) (inner : HandlerFn α ε) :
    HandlerFn α ε :=
  fun h => inner (setHeader h contentTypeHeaderKey contentType)

/-- `vk.Response` (TypedResponse): status (Go zero value `0` = unset), body
bytes (modelled as a string), content type (`""` = undetected). -/
structure TypedResponse where
  status : ℕ
  body : String
  contentType : String
deriving DecidableEq, Repr

/-- The handler's returned `interface{}` value, as the spec's tagged union:
a TypedResponse, raw bytes, an arbitrary structured value (of abstract type
`J`, serialized by a caller-supplied encoder), or nil. -/
inductive Value (J : Type) where
  | typedResponse : TypedResponse → Value J
  | bytes : String → Value J
  | structured : J → Value J
  | nilValue : Value J
deriving DecidableEq, Repr

/-- The handler's returned `error`: a `vk.Error` (TypedError) with status
and message, or any other (generic) error with its textual description. -/
inductive HandlerError where
  | typed : ℕ → String → HandlerError
  | generic : String → HandlerError
deriving DecidableEq, Repr

/-- `E` — Modelled from the spec: the TypedError constructor taking a
status and a message (`E(status, string(body))` in src/vk/router.go; its
definition lives outside src/). -/
def E (status : ℕ) (message : String) : HandlerError :=
  .typed status message

/-- `responseOrOtherToBytes` — Modelled from the spec (§4.3 ResolveValue;
the function itself lives outside src/): a TypedResponse is used verbatim
with status defaulting to 200 when unset; raw bytes give status 200 with no
detected content type; any other non-nil structured value gives status 200,
its JSON serialization and content type "application/json"; nil gives
status 200 with an empty body. Returns (status, body, detected type, with
`""` meaning undetected). -/
def responseOrOtherToBytes (jsonEnc : J → String) :
    Value J → ℕ × String × String
  | .typedResponse tr =>
    (if tr.status = 0 then 200 else tr.status, tr.body, tr.contentType)
  | .bytes b => (200, b, "")
  | .structured j => (200, jsonEnc j, "application/json")
  | .nilValue => (200, "", "")

/-- `errorOrOtherToBytes` — Modelled from the spec (§4.3 ResolveError; the
function itself lives outside src/): a TypedError yields its own status
with its message as the body; a generic error yields status 500 with the
error's textual description, content type "text/plain" (the spec leaves
plain-text versus JSON for the TypedError body as an implementation
choice; plain text is used here). -/
def errorOrOtherToBytes : HandlerError → ℕ × String × String
  | .typed status message => (status, message, "text/plain")
  | .generic message => (500, message, "text/plain")

/-- The wire response assembled by `httpHandlerWrap`: the status and body
written to `w`, and the response headers at write time. -/
structure Written where
  status : ℕ
  body : String
  headers : Headers

/-- `httpHandlerWrap` (src/vk/router.go), response-relevant part: invoke the
inner handler with the response headers as the context's `RespHeaders`;
resolve the returned error (when non-nil) or value into
(status, body, detected content type); keep an already-set Content-Type
header and only write the detected type when the header is still empty;
then write status and body. -/
def httpHandlerWrap (jsonEnc : J → String)
    (inner : Headers → Headers × (Value J × Option HandlerError))
    (h0 : Headers) : Written :=
  let r := inner h0
  let resolved : ℕ × String × String :=
    match r.2.2 with
    | some err => errorOrOtherToBytes err
    | none => responseOrOtherToBytes jsonEnc r.2.1
  let headerCType := getHeader r.1 contentTypeHeaderKey
  let shouldSetCType := headerCType = ""
  let h2 :=
    if shouldSetCType then setHeader r.1 contentTypeHeaderKey resolved.2.2
    else r.1
  { status := resolved.1, body := resolved.2.1, headers := h2 }

/-- `wsHandlerWrap` (src/vk/router.go): attempt the upgrade handshake (an
external effect, a state transformer producing either a connection or an
error); on failure resolve the error and return `(nil, E(status, body))`;
on success delegate to the inner websocket handler and return nil with its
error. `Conn` is the abstract upgraded-connection type `κ`. -/
def wsHandlerWrap {σ κ α : Type}
    (upgrade : σ → σ × Except HandlerError κ)
    (inner : κ → σ → σ × Option HandlerError) (s : σ) :
    σ × (Option α × Option HandlerError) :=
  match upgrade s with
  | (s', .error err) =>
    let resolved := errorOrOtherToBytes err
    (s', (none, some (E resolved.1 resolved.2.1)))
  | (s', .ok conn) =>
    let t := inner conn s'
    (t.1, (none, t.2))

/-- `Router` (src/vk/router.go): the root route group (abstract type `γ`),
the internal matcher's registration table (entries mount `(method, path,
wrapped handler)`, handlers of abstract type `β`), the `sync.Once` guard as
a done flag, and the optional fallback reverse proxy (target of abstract
type `υ`). -/
structure Router (γ β υ : Type) where
  routeGroup : γ
  table : List (String × String × β)
  finalizedOnce : Bool
  fallbackProxy : Option υ
deriving DecidableEq

/-- `NewRouter` (src/vk/router.go): empty table, unfinalized; when the
fallback string is non-empty, parse it (`parse` models the external
`url.Parse`, `none` = nil URL) and attach a reverse proxy exactly when the
parsed URL is non-nil. -/
def NewRouter (parse : String → Option υ) (group : γ) (fallback : String) :
    Router γ β υ :=
  { routeGroup := group
    table := []
    finalizedOnce := false
    fallbackProxy :=
      if fallback ≠ "" then
        match parse fallback with
        | some u => some u
        | none => none
      else none }

/-- `mountGroup` (src/vk/router.go): register every expanded route of the
group with the matcher. `expand` models the external route-group expansion
(`httpRouteHandlers`) composed with `httpHandlerWrap`. -/
def mountGroup (expand : γ → List (String × String × β))
    (rt : Router γ β υ) : Router γ β υ :=
  { rt with table := rt.table ++ expand rt.routeGroup }

/-- `Finalize` (src/vk/router.go): `finalizeOnce.Do(mountGroup root)` —
mount the root group only if no previous call did. -/
def Finalize (expand : γ → List (String × String × β))
    (rt : Router γ β υ) : Router γ β υ :=
  if rt.finalizedOnce then rt
  else { mountGroup expand rt with finalizedOnce := true }

/-- The three ways `ServeHTTP` can dispose of a request: invoke a matched
handler, forward to the fallback proxy, or hand the request to the internal
matcher's own fallthrough (not-found / method-not-allowed). -/
inductive ServeOutcome (ρ : Type) where
  | handled : ρ → ServeOutcome ρ
  | proxied : ServeOutcome ρ
  | fellthrough : ServeOutcome ρ
deriving DecidableEq, Repr

/-- `ServeHTTP` (src/vk/router.go): look up (method, path) with the internal
matcher (`lookup` models the external `httprouter.Lookup` over the mounted
table, `none` = nil handler); on a hit invoke the matched handler (`run`
models the invocation); on a miss forward to the fallback proxy when one is
attached, otherwise fall through to the matcher. -/
def ServeHTTP (lookup : List (String × String × β) → String → String → Option β)
    (run : β → ρ) (rt : Router γ β υ) (method path : String) : ServeOutcome ρ :=
  match lookup rt.table method path with
  | some handler => .handled (run handler)
  | none =>
    match rt.fallbackProxy with
    | some _ => .proxied
    | none => .fellthrough

end Vk

namespace Vk

theorem runMiddleware_append (xs ys : List (MwFn σ ε)) (s : σ) :
    runMiddleware (xs ++ ys) s =
      match runMiddleware xs s with
      | (s', .panic) => (s', .panic)
      | (s', .norm (some e)) => (s', .norm (some e))
      | (s', .norm none) => runMiddleware ys s' := by
  induction xs generalizing s with
  | nil => simp [runMiddleware]
  | cons m rest ih =>
    simp only [List.cons_append, runMiddleware]
    rcases m s with ⟨s', o⟩
    match o with
    | .panic => simp
    | .norm (some e) => simp
    | .norm none => simpa using ih s'

theorem runAfterware_append_markers (n : ℕ) (s : List ℕ) :
    runAfterware ((List.range n).map (fun i => fun t => t ++ [i])) s =
      s ++ List.range n := by
  induction n generalizing s with
  | zero => simp [runAfterware]
  | succ k ih =>
    simp only [runAfterware, List.range_succ, List.map_append, List.foldl_append,
      List.map_cons, List.map_nil, List.foldl_cons, List.foldl_nil]
    rw [← runAfterware, ih, List.append_assoc]

/-- C1: middleware composed by `augmentHttpHandler` run in list order; if a
middleware returns a non-nil error then the later middleware and the
terminal handler are never invoked (the result does not depend on them) and
`(nil, that error)` is the composed handler's result; if every middleware
returns nil, the terminal handler's `(value, error)` is the result. -/
theorem augmentHttpHandler_chain_spec {σ ε α : Type}
    (pre suf suf2 mws : List (MwFn σ ε)) (m : MwFn σ ε)
    (inner inner2 : HFn σ ε α) (afterware : List (AfFn σ))
    (s s₁ s₂ t : σ) (e : ε) (v : Option α) (er : Option ε) :
    (runMiddleware pre s = (s₁, .norm none) →
      m s₁ = (s₂, .norm (some e)) →
      augmentHttpHandler inner (pre ++ m :: suf) afterware s =
        (runAfterware afterware s₂, .norm (none, some e)) ∧
      augmentHttpHandler inner (pre ++ m :: suf) afterware s =
        augmentHttpHandler inner2 (pre ++ m :: suf2) afterware s) ∧
    (runMiddleware mws s = (t, .norm none) →
      inner t = ((inner t).1, .norm (v, er)) →
      augmentHttpHandler inner mws afterware s =
        (runAfterware afterware (inner t).1, .norm (v, er))) := by
  constructor
  · intro hpre hm
    have hrun : runMiddleware (pre ++ m :: suf) s = (s₂, .norm (some e)) := by
      rw [runMiddleware_append, hpre]
      simp [runMiddleware, hm]
    have hrun2 : runMiddleware (pre ++ m :: suf2) s = (s₂, .norm (some e)) := by
      rw [runMiddleware_append, hpre]
      simp [runMiddleware, hm]
    constructor
    · simp only [augmentHttpHandler, hrun]
    · simp only [augmentHttpHandler, hrun, hrun2]
  · intro hmws hinner
    simp only [augmentHttpHandler, hmws]
    rw [hinner]

/-- C1 witness: a concrete two-middleware chain where the second errors. -/
theorem augmentHttpHandler_chain_spec_witness :
    augmentHttpHandler (σ := ℕ) (ε := ℕ) (α := ℕ)
        (fun s => (s + 100, .norm (some 7, none)))
        [fun s => (s + 1, .norm none), fun s => (s + 2, .norm (some 9)),
          fun s => (s + 4, .norm none)]
        [fun s => s + 10] 0 =
      (13, .norm (none, some 9)) ∧
    augmentHttpHandler (σ := ℕ) (ε := ℕ) (α := ℕ)
        (fun s => (s + 100, .norm (some 7, none)))
        [fun s => (s + 1, .norm none)] [fun s => s + 10] 0 =
      (111, .norm (some 7, none)) := by
  refine ⟨?_, ?_⟩
  · have h := (augmentHttpHandler_chain_spec (σ := ℕ) (ε := ℕ) (α := ℕ)
      [fun s => (s + 1, .norm none)]
      [fun s => (s + 4, .norm none)] [] []
      (fun s => (s + 2, .norm (some 9)))
      (fun s => (s + 100, .norm (some 7, none)))
      (fun s => (s + 100, .norm (some 7, none)))
      [fun s => s + 10] 0 1 3 0
      9 (some 7) none).1 rfl rfl
    exact h.1
  · exact (augmentHttpHandler_chain_spec (σ := ℕ) (ε := ℕ) (α := ℕ)
      [] [] []
      [fun s => (s + 1, .norm none)]
      (fun s => (s, .norm none))
      (fun s => (s + 100, .norm (some 7, none)))
      (fun s => (s + 100, .norm (some 7, none)))
      [fun s => s + 10] 0 0 0 1
      0 (some 7) none).2 rfl rfl

/-- C2: for handlers composed by `augmentHttpHandler` or `augmentWsHandler`
the afterware list is folded over the state exactly once, after the
middleware/handler phase, whatever that phase did — returned normally,
returned an error, or unwound abnormally (`.panic`) — and the afterware
cannot change the returned result. The last conjunct instruments the
afterware with distinct markers: for every middleware list and inner
handler (including panicking ones) each marker is appended exactly once,
in list order. -/
theorem augment_afterware_always_runs_once :
    (∀ (σ ε α : Type) (inner : HFn σ ε α) (mws : List (MwFn σ ε))
        (afterware : List (AfFn σ)) (s : σ),
      augmentHttpHandler inner mws afterware s =
        (runAfterware afterware (httpPipeline inner mws s).1,
          (httpPipeline inner mws s).2)) ∧
    (∀ (σ ε : Type) (inner : WsFn σ ε) (mws : List (MwFn σ ε))
        (afterware : List (AfFn σ)) (s : σ),
      augmentWsHandler inner mws afterware s =
        (runAfterware afterware (wsPipeline inner mws s).1,
          (wsPipeline inner mws s).2)) ∧
    (∀ (n : ℕ) (inner : HFn (List ℕ) Unit Unit)
        (mws : List (MwFn (List ℕ) Unit)) (s : List ℕ),
      (augmentHttpHandler inner mws
          ((List.range n).map (fun i => fun t => t ++ [i])) s).1 =
        (httpPipeline inner mws s).1 ++ List.range n) := by
  refine ⟨fun σ ε α inner mws afterware s => ?_,
    fun σ ε inner mws afterware s => ?_, fun n inner mws s => ?_⟩
  · simp only [augmentHttpHandler, httpPipeline]
  · simp only [augmentWsHandler, wsPipeline]
  · simp only [augmentHttpHandler, httpPipeline]
    exact runAfterware_append_markers n _

/-- C10: `WrapHandler` never invokes a nil middleware — the composed handler
equals `WrapHandler` on the list with the nil entries removed — and the
middlewares apply first to last, so the last non-nil middleware is
outermost. -/
theorem WrapHandler_skips_nil {η : Type} (handler : η) (mw : List (FnMw η))
    (f : η → η) :
    WrapHandler handler mw = WrapHandler handler (mw.filter Option.isSome) ∧
    WrapHandler handler (mw ++ [some f]) = f (WrapHandler handler mw) ∧
    WrapHandler handler (mw ++ [none]) = WrapHandler handler mw := by
  refine ⟨?_, ?_, ?_⟩
  · induction mw generalizing handler with
    | nil => rfl
    | cons m rest ih =>
      match m with
      | some g => simpa [WrapHandler, List.filter] using ih (g handler)
      | none => simpa [WrapHandler, List.filter] using ih handler
  · simp [WrapHandler]
  · simp [WrapHandler]

/-- C3: when the inner handler returns a nil error, `httpHandlerWrap`
resolves the response with `responseOrOtherToBytes`, whose case analysis
gives: TypedResponse verbatim with status defaulting to 200 when unset;
raw bytes with status 200 and no detected type; any other structured value
with status 200, JSON body and "application/json"; nil with status 200 and
an empty body. -/
theorem httpHandlerWrap_value_resolution {J : Type} (jsonEnc : J → String)
    (inner : Headers → Headers × (Value J × Option HandlerError))
    (h0 h1 : Headers) (v : Value J) (st : ℕ) (b ct : String) (j : J)
    (hinner : inner h0 = (h1, (v, none))) :
    (httpHandlerWrap jsonEnc inner h0).status =
      (responseOrOtherToBytes jsonEnc v).1 ∧
    (httpHandlerWrap jsonEnc inner h0).body =
      (responseOrOtherToBytes jsonEnc v).2.1 ∧
    responseOrOtherToBytes jsonEnc (.typedResponse ⟨st, b, ct⟩) =
      (if st = 0 then 200 else st, b, ct) ∧
    responseOrOtherToBytes jsonEnc (.bytes b) = (200, b, "") ∧
    responseOrOtherToBytes jsonEnc (.structured j) =
      (200, jsonEnc j, "application/json") ∧
    responseOrOtherToBytes jsonEnc (Value.nilValue) = (200, "", "") := by
  refine ⟨?_, ?_, rfl, rfl, rfl, rfl⟩ <;>
    simp only [httpHandlerWrap, hinner]

/-- C3 witness: a handler returning `(nil, nil)` resolves to status 200,
empty body. -/
theorem httpHandlerWrap_value_resolution_witness :
    (httpHandlerWrap (fun n : ℕ => toString n)
        (fun h => (h, (Value.nilValue, none))) (fun _ => "")).status =
      (responseOrOtherToBytes (fun n : ℕ => toString n) Value.nilValue).1 ∧
    responseOrOtherToBytes (fun n : ℕ => toString n) Value.nilValue =
      (200, "", "") := by
  have h := httpHandlerWrap_value_resolution (fun n : ℕ => toString n)
    (fun h => (h, (Value.nilValue, none))) (fun _ => "") (fun _ => "")
    Value.nilValue 0 "" "" 3 rfl
  exact ⟨h.1, h.2.2.2.2.2⟩

/-- C4: after the handler chain returns, `httpHandlerWrap` preserves a
non-empty Content-Type response header and discards the resolver's detected
type; it writes the detected type to the header only when the header is
still empty at that point. -/
theorem httpHandlerWrap_content_type_precedence {J : Type}
    (jsonEnc : J → String)
    (inner : Headers → Headers × (Value J × Option HandlerError))
    (h0 h1 : Headers) (v : Value J) (e : Option HandlerError)
    (hinner : inner h0 = (h1, (v, e))) :
    (httpHandlerWrap jsonEnc inner h0).headers =
      if getHeader h1 contentTypeHeaderKey = "" then
        setHeader h1 contentTypeHeaderKey
          (match e with
            | some err => (errorOrOtherToBytes err).2.2
            | none => (responseOrOtherToBytes jsonEnc v).2.2)
      else h1 := by
  simp only [httpHandlerWrap, hinner]
  cases e <;> rfl

/-- C4 witness: with Content-Type already set to "text/html" by the chain,
the written headers keep it (the handler returned nil, whose detected type
would otherwise have been written). -/
theorem httpHandlerWrap_content_type_precedence_witness :
    (httpHandlerWrap (fun n : ℕ => toString n)
        (fun h => (h, (Value.nilValue, none)))
        (fun k => if k = "Content-Type" then "text/html" else "")).headers =
      (fun k => if k = "Content-Type" then "text/html" else "") := by
  rw [httpHandlerWrap_content_type_precedence (fun n : ℕ => toString n)
    (fun h => (h, (Value.nilValue, none)))
    (fun k => if k = "Content-Type" then "text/html" else "")
    (fun k => if k = "Content-Type" then "text/html" else "")
    Value.nilValue none rfl]
  simp [getHeader, contentTypeHeaderKey]

/-- C5: `Finalize` is idempotent — N > 0 invocations produce the same
router (and dispatch table) as one; a second invocation does not change the
table mounted by the first, and the once-guard is set after the first
call. -/
theorem Finalize_idempotent {γ β υ : Type}
    (expand : γ → List (String × String × β)) (rt : Router γ β υ)
    (n : ℕ) (h : 0 < n) :
    (Finalize expand)^[n] rt = Finalize expand rt ∧
    (Finalize expand (Finalize expand rt)).table = (Finalize expand rt).table ∧
    (Finalize expand rt).finalizedOnce = true := by
  have key : ∀ r : Router γ β υ,
      Finalize expand (Finalize expand r) = Finalize expand r := by
    intro r
    by_cases hf : r.finalizedOnce <;> simp [Finalize, hf]
  have iter : ∀ m, 0 < m →
      (Finalize expand)^[m] rt = Finalize expand rt := by
    intro m hm
    induction m with
    | zero => omega
    | succ k ih =>
      rcases Nat.eq_zero_or_pos k with hk | hk
      · subst hk; simp
      · rw [Function.iterate_succ_apply', ih hk, key]
  refine ⟨iter n h, by rw [key], ?_⟩
  by_cases hf : rt.finalizedOnce <;> simp [Finalize, hf]

/-- C5 witness: three finalizations of a concrete router equal one. -/
theorem Finalize_idempotent_witness :
    0 < 3 ∧
    ((Finalize (fun _ : Unit => [("GET", "/a", (0 : ℕ))]))^[3]
        (NewRouter (υ := Unit) (fun _ => none) () "") =
      Finalize (fun _ : Unit => [("GET", "/a", (0 : ℕ))])
        (NewRouter (υ := Unit) (fun _ => none) () "")) :=
  ⟨by decide,
    (Finalize_idempotent (fun _ : Unit => [("GET", "/a", (0 : ℕ))])
      (NewRouter (υ := Unit) (fun _ => none) () "") 3 (by decide)).1⟩

/-- C6: `ServeHTTP` dispatches by matcher lookup — a hit invokes the
matched composed handler; a miss is forwarded to the fallback proxy when
one is attached, and otherwise falls through to the matcher's own
not-found/method-not-allowed handling. -/
theorem ServeHTTP_dispatch {γ β υ ρ : Type}
    (lookup : List (String × String × β) → String → String → Option β)
    (run : β → ρ) (rt : Router γ β υ) (method path : String)
    (handler : β) (u : υ) :
    (lookup rt.table method path = some handler →
      ServeHTTP lookup run rt method path = .handled (run handler)) ∧
    (lookup rt.table method path = none → rt.fallbackProxy = some u →
      ServeHTTP lookup run rt method path = .proxied) ∧
    (lookup rt.table method path = none → rt.fallbackProxy = none →
      ServeHTTP lookup run rt method path = .fellthrough) := by
  refine ⟨fun hl => ?_, fun hl hp => ?_, fun hl hp => ?_⟩
  · simp [ServeHTTP, hl]
  · simp [ServeHTTP, hl, hp]
  · simp [ServeHTTP, hl, hp]

/-- C6 witness: concrete hit, proxied-miss and fallthrough-miss cases. -/
theorem ServeHTTP_dispatch_witness :
    ServeHTTP (γ := Unit) (υ := Unit)
        (fun table m p => if m = "GET" ∧ p = "/a" then table.head?.map (·.2.2) else none)
        (fun b => b + 1)
        ⟨(), [("GET", "/a", (5 : ℕ))], true, none⟩ "GET" "/a" =
      .handled 6 ∧
    ServeHTTP (γ := Unit) (υ := Unit)
        (fun _ _ _ => none) (fun b : ℕ => b + 1)
        ⟨(), [], true, some ()⟩ "GET" "/x" = .proxied ∧
    ServeHTTP (γ := Unit) (υ := Unit)
        (fun _ _ _ => none) (fun b : ℕ => b + 1)
        ⟨(), [], true, none⟩ "GET" "/x" = .fellthrough := by
  refine ⟨?_, ?_, ?_⟩
  · exact (ServeHTTP_dispatch
      (fun table m p => if m = "GET" ∧ p = "/a" then table.head?.map (·.2.2) else none)
      (fun b => b + 1) ⟨(), [("GET", "/a", (5 : ℕ))], true, none⟩
      "GET" "/a" 5 ()).1 (by simp)
  · exact (ServeHTTP_dispatch (fun _ _ _ => none) (fun b : ℕ => b + 1)
      ⟨(), [], true, some ()⟩ "GET" "/x" 0 ()).2.1 rfl rfl
  · exact (ServeHTTP_dispatch (fun _ _ _ => none) (fun b : ℕ => b + 1)
      ⟨(), [], true, none⟩ "GET" "/x" 0 ()).2.2 rfl rfl

/-- C7: `NewRouter` attaches the fallback proxy exactly when the fallback
target is non-empty and parses to a non-nil URL; whenever it is absent or
invalid the feature is disabled, so an unmatched request falls through to
the matcher's plain not-found/method-not-allowed resolution instead of
being forwarded. -/
theorem NewRouter_proxy_validity {γ β υ ρ : Type}
    (parse : String → Option υ) (group : γ) (fallback : String) :
    (((NewRouter parse group fallback : Router γ β υ).fallbackProxy).isSome =
        true ↔
      fallback ≠ "" ∧ (parse fallback).isSome = true) ∧
    (∀ (lookup : List (String × String × β) → String → String → Option β)
        (run : β → ρ) (method path : String),
      (fallback = "" ∨ parse fallback = none) →
      lookup (NewRouter parse group fallback : Router γ β υ).table method path =
        none →
      ServeHTTP lookup run (NewRouter parse group fallback) method path =
        .fellthrough) := by
  have hproxy : (NewRouter parse group fallback : Router γ β υ).fallbackProxy =
      if fallback ≠ "" then
        match parse fallback with
        | some u => some u
        | none => none
      else none := rfl
  constructor
  · rw [hproxy]
    by_cases hf : fallback = ""
    · simp [hf]
    · rcases hp : parse fallback with _ | u <;> simp [hf, hp]
  · intro lookup run method path hdis hl
    have hnone : (NewRouter parse group fallback : Router γ β υ).fallbackProxy =
        none := by
      rw [hproxy]
      rcases hdis with hf | hp
      · simp [hf]
      · by_cases hf : fallback = "" <;> simp [hf, hp]
    simp [ServeHTTP, hl, hnone]

/-- C7 witness: an empty target and an unparseable target both leave the
proxy disabled and let a missed request fall through; a valid non-empty
target attaches the proxy. -/
theorem NewRouter_proxy_validity_witness :
    ((NewRouter (γ := Unit) (β := ℕ) (υ := Unit)
        (fun t => if t = "http://x" then some () else none) () "http://x"
        ).fallbackProxy).isSome = true ∧
    ServeHTTP (fun _ _ _ => none) (fun b : ℕ => b + 1)
        (NewRouter (γ := Unit) (υ := Unit)
          (fun t => if t = "http://x" then some () else none) () "")
        "GET" "/x" = .fellthrough ∧
    ServeHTTP (fun _ _ _ => none) (fun b : ℕ => b + 1)
        (NewRouter (γ := Unit) (υ := Unit) (fun _ => none) () "::bad::")
        "GET" "/x" = .fellthrough := by
  refine ⟨?_, ?_, ?_⟩
  · exact (NewRouter_proxy_validity (ρ := ℕ)
      (fun t => if t = "http://x" then some () else none) ()
      "http://x").1.mpr ⟨by decide, by simp⟩
  · exact (NewRouter_proxy_validity
      (fun t => if t = "http://x" then some () else none) () "").2
      (fun _ _ _ => none) (fun b : ℕ => b + 1) "GET" "/x" (Or.inl rfl) rfl
  · exact (NewRouter_proxy_validity (fun _ : String => (none : Option Unit)) ()
      "::bad::").2
      (fun _ _ _ => none) (fun b : ℕ => b + 1) "GET" "/x" (Or.inr rfl) rfl

/-- C8: `enableCors` (and with it `CORSMiddleware`/`CORSHandler`) with
domain "*" sets Access-Control-Allow-Origin to "*", X-Requested-With to
"XMLHttpRequest" and Access-Control-Allow-Headers to the fixed allow-list;
with domain "" it sets none of them and leaves the response headers
unchanged. -/
theorem enableCors_domains {α ε : Type} (h : Headers) (inner : HandlerFn α ε) :
    getHeader (enableCors h "*") "Access-Control-Allow-Origin" = "*" ∧
    getHeader (enableCors h "*") "X-Requested-With" = "XMLHttpRequest" ∧
    getHeader (enableCors h "*") "Access-Control-Allow-Headers" =
      corsAllowHeaders ∧
    (CORSHandler (α := α) (ε := ε) "*" h).1 = enableCors h "*" ∧
    CORSMiddleware "*" inner h = inner (enableCors h "*") ∧
    enableCors h "" = h ∧
    CORSHandler (α := α) (ε := ε) "" h = (h, (none, none)) ∧
    CORSMiddleware "" inner h = inner h := by
  refine ⟨?_, ?_, ?_, rfl, rfl, ?_, ?_, ?_⟩ <;>
    simp [enableCors, setHeader, getHeader, CORSHandler, CORSMiddleware]

/-- C9: `wsHandlerWrap` returns, on a failed upgrade handshake, a nil value
with a TypedError built from the resolved status and message of the upgrade
error; on a successful upgrade it delegates to the inner websocket handler
and returns a nil value with the inner handler's error. -/
theorem wsHandlerWrap_spec {σ κ α : Type}
    (upgrade : σ → σ × Except HandlerError κ)
    (inner : κ → σ → σ × Option HandlerError)
    (s s' : σ) (err : HandlerError) (conn : κ) :
    (upgrade s = (s', .error err) →
      wsHandlerWrap (α := α) upgrade inner s =
        (s', (none, some (E (errorOrOtherToBytes err).1
          (errorOrOtherToBytes err).2.1)))) ∧
    (upgrade s = (s', .ok conn) →
      wsHandlerWrap (α := α) upgrade inner s =
        ((inner conn s').1, (none, (inner conn s').2))) := by
  refine ⟨fun hu => ?_, fun hu => ?_⟩ <;> simp [wsHandlerWrap, hu]

/-- C9 witness: a failing upgrade yields the resolved TypedError; a
successful upgrade yields the inner handler's error. -/
theorem wsHandlerWrap_spec_witness :
    wsHandlerWrap (σ := ℕ) (κ := Unit) (α := ℕ)
        (fun s => (s + 1, .error (.generic "boom"))) (fun _ s => (s, none)) 0 =
      (1, (none, some (HandlerError.typed 500 "boom"))) ∧
    wsHandlerWrap (σ := ℕ) (κ := Unit) (α := ℕ)
        (fun s => (s + 1, .ok ()))
        (fun _ s => (s + 2, some (.generic "x"))) 0 =
      (3, (none, some (HandlerError.generic "x"))) := by
  constructor
  · exact (wsHandlerWrap_spec (α := ℕ)
      (fun s => (s + 1, .error (.generic "boom"))) (fun _ s => (s, none))
      0 1 (.generic "boom") ()).1 rfl
  · exact (wsHandlerWrap_spec (α := ℕ)
      (fun s => (s + 1, .ok ()))
      (fun _ s => (s + 2, some (.generic "x")))
      0 1 (.generic "boom") ()).2 rfl

end Vk
